import Mathlib

/-!
Verification development for the tf-rnn sequence-classification performance
engine (sparse confusion matrix plus derived metrics) and the dataset
token-index mappings.

The confusion-matrix implementation file itself
(tf_rnn/layers/utils/confusion_matrix.py) is absent from the repository
snapshot; only its test suite (src/test/layers/performance_layer/
test_confusion_matrix.py) is present.  The confusion-matrix definitions
below are therefore modelled from the specification, with the test fixtures
of the repository used as the golden oracle the spec designates for the
metric aggregation.  Label sets are modelled as duplicate-free lists in
first-insertion order (insertion is idempotent, as for a Python set), and
counts as a total function that is 0 on absent cells.
-/

set_option maxRecDepth 100000

namespace TfRnn

/-- Modelled from the spec: the ConfusionMatrix state of
tf_rnn/layers/utils/confusion_matrix.py (missing from the snapshot).
`matrix` maps an actual label and a predicted label to a count (absent
cells are 0), `row_labels` lists the actual labels ever observed and
`col_labels` the predicted labels ever observed. -/
structure ConfusionMatrix where
  matrix : Nat → Nat → Nat
  row_labels : List Nat
  col_labels : List Nat

/-- Modelled from the spec: a ConfusionMatrix is created empty (no rows,
no columns, every count 0). -/
def ConfusionMatrix.empty : ConfusionMatrix :=
  { matrix := fun _ _ => 0, row_labels := [], col_labels := [] }

/-- Idempotent set-style insertion into a label list: a no-op when the
label is already present, otherwise the label is appended. -/
def insertLabel (s : List Nat) (a : Nat) : List Nat :=
  if a ∈ s then s else s ++ [a]

/-- Modelled from the spec: insert_prediction(predicted_label, actual_label)
increments matrix[actual][predicted] by 1 (creating the cell at 1 when
absent) and adds the actual label to row_labels and the predicted label to
col_labels (set semantics, so no duplicate-insert side effects). -/
def insert_prediction (cm : ConfusionMatrix) (predicted actual : Nat) : ConfusionMatrix :=
  { matrix := fun a p =>
      if a = actual ∧ p = predicted then cm.matrix a p + 1 else cm.matrix a p
    row_labels := insertLabel cm.row_labels actual
    col_labels := insertLabel cm.col_labels predicted }

/-- Modelled from the spec: one row of a batch is ingested by invoking
insert_prediction on the first `size` positions only; positions at or
beyond `size` are padding and are skipped unconditionally, whatever their
content. -/
def updateRow (cm : ConfusionMatrix) (preds labs : List Nat) (size : Nat) : ConfusionMatrix :=
  ((preds.take size).zip (labs.take size)).foldl
    (fun c pl => insert_prediction c pl.1 pl.2) cm

/-- Row-by-row ingestion of a batch: each aligned row triple is ingested
through updateRow. -/
def runBatch (cm : ConfusionMatrix) (predictions labels : List (List Nat))
    (sizes : List Nat) : ConfusionMatrix :=
  ((predictions.zip labels).zip sizes).foldl
    (fun c x => updateRow c x.1.1 x.1.2 x.2) cm

/-- Modelled from the spec: update(predictions, labels, sizes) is a no-op
when any of the three sequences is empty, and otherwise ingests each row i
through its first sizes[i] positions. -/
def update (cm : ConfusionMatrix) (predictions labels : List (List Nat))
    (sizes : List Nat) : ConfusionMatrix :=
  if predictions = [] ∨ labels = [] ∨ sizes = [] then cm
  else runBatch cm predictions labels sizes

/-- Modelled from the spec: the label universe of the export and of the
metrics is the union of row and column labels (deduplicated). -/
def labelsOf (cm : ConfusionMatrix) : List Nat :=
  cm.col_labels.foldl insertLabel cm.row_labels

/-- Insertion of a value into an already sorted list of naturals. -/
def insertSorted (a : Nat) : List Nat → List Nat
  | [] => [a]
  | b :: t => if a ≤ b then a :: b :: t else b :: insertSorted a t

/-- Insertion sort on lists of naturals (structurally recursive). -/
def sortLabels (l : List Nat) : List Nat :=
  l.foldr insertSorted []

/-- Modelled from the spec: the ascending sorted deduplicated union of row
and column labels, indexing the rows and columns of the dense export. -/
def sortedLabels (cm : ConfusionMatrix) : List Nat :=
  sortLabels (labelsOf cm)

/-- Modelled from the spec: to_array() returns the dense square matrix
indexed by the sorted deduplicated union of row and column labels, with
absent cells exported as 0; an empty matrix exports as an empty sequence. -/
def to_array (cm : ConfusionMatrix) : List (List Nat) :=
  (sortedLabels cm).map fun r => (sortedLabels cm).map fun c => cm.matrix r c

/-- Modelled from the spec: the immutable four-scalar metrics record; the
field recall_score models the Python field named recall. -/
structure PerformanceMetrics where
  accuracy : Rat
  precision : Rat
  recall_score : Rat
  f1_score : Rat
deriving DecidableEq

/-- Modelled from the spec: row support R(l), the sum of row l over the
label universe (the actual count of label l). -/
def rowSupport (cm : ConfusionMatrix) (l : Nat) : Nat :=
  ((labelsOf cm).map fun c => cm.matrix l c).sum

/-- Modelled from the spec: column support C(l), the sum of column l over
the label universe (the predicted count of label l). -/
def colSupport (cm : ConfusionMatrix) (l : Nat) : Nat :=
  ((labelsOf cm).map fun r => cm.matrix r l).sum

/-- Modelled from the spec: true positives TP(l) = matrix[l][l]. -/
def truePositives (cm : ConfusionMatrix) (l : Nat) : Nat :=
  cm.matrix l l

/-- Modelled from the spec: total observation count N, the sum over all
cells of the label universe. -/
def totalCount (cm : ConfusionMatrix) : Nat :=
  ((labelsOf cm).map fun r => rowSupport cm r).sum

/-- Modelled from the spec: the per-label column-based ratio TP(l)/C(l),
defined as 0 when the column support is 0 (never a division fault). -/
def colRatioOfLabel (cm : ConfusionMatrix) (l : Nat) : Rat :=
  if 0 < colSupport cm l then (truePositives cm l : Rat) / (colSupport cm l : Rat) else 0

/-- Modelled from the spec: the per-label row-based ratio TP(l)/R(l),
defined as 0 when the row support is 0 (never a division fault). -/
def rowRatioOfLabel (cm : ConfusionMatrix) (l : Nat) : Rat :=
  if 0 < rowSupport cm l then (truePositives cm l : Rat) / (rowSupport cm l : Rat) else 0

/-- Unweighted (macro) average over the label universe of a per-label
quantity. -/
def macroAgg (cm : ConfusionMatrix) (f : ConfusionMatrix → Nat → Rat) : Rat :=
  ((labelsOf cm).map (f cm)).sum / ((labelsOf cm).length : Rat)

/-- Average over the label universe of a per-label quantity weighted by row
support (actual-class support). -/
def rowWeightedAgg (cm : ConfusionMatrix) (f : ConfusionMatrix → Nat → Rat) : Rat :=
  ((labelsOf cm).map fun l => (rowSupport cm l : Rat) * f cm l).sum / (totalCount cm : Rat)

/-- Average over the label universe of a per-label quantity weighted by
column support (predicted-class support). -/
def colWeightedAgg (cm : ConfusionMatrix) (f : ConfusionMatrix → Nat → Rat) : Rat :=
  ((labelsOf cm).map fun l => (colSupport cm l : Rat) * f cm l).sum / (totalCount cm : Rat)

/-- Modelled from the spec: performance_metrics() of the missing
confusion_matrix.py.  Accuracy is the trace over the total count; the
aggregation of the per-label ratios is the one pinned down by the golden
fixture of the repository's test suite (the spec designates those fixture
values as the oracle for the aggregation): the reported precision is the
unweighted mean over labels of TP(l)/R(l), the reported recall the
unweighted mean of TP(l)/C(l), and f1 the harmonic mean of those two
scalars.  An empty matrix yields the neutral record (all four fields 0).
Here, accuracyOf is the trace-over-total accuracy scalar, 0 when the total
is 0 (never a division fault). -/
def accuracyOf (cm : ConfusionMatrix) : Rat :=
  if 0 < totalCount cm
  then (((labelsOf cm).map fun l => truePositives cm l).sum : Rat) / (totalCount cm : Rat)
  else 0

/-- Harmonic mean of the two reported aggregate scalars, 0 when their sum
is 0 (never a division fault). -/
def f1Of (cm : ConfusionMatrix) : Rat :=
  if macroAgg cm rowRatioOfLabel + macroAgg cm colRatioOfLabel = 0 then 0
  else 2 * macroAgg cm rowRatioOfLabel * macroAgg cm colRatioOfLabel /
    (macroAgg cm rowRatioOfLabel + macroAgg cm colRatioOfLabel)

/-- Modelled from the spec: performance_metrics() bundles the four scalars;
see accuracyOf and f1Of for the component formulas and the doc comment of
accuracyOf for how the aggregation was pinned against the golden fixture. -/
def performance_metrics (cm : ConfusionMatrix) : PerformanceMetrics :=
  if labelsOf cm = [] then ⟨0, 0, 0, 0⟩
  else ⟨accuracyOf cm, macroAgg cm rowRatioOfLabel, macroAgg cm colRatioOfLabel, f1Of cm⟩

/-- Modelled from the spec: to_array is read-only; the call returns its
output paired with the post-call state, which is the unchanged snapshot. -/
def to_array_call (cm : ConfusionMatrix) : List (List Nat) × ConfusionMatrix :=
  (to_array cm, cm)

/-- Modelled from the spec: performance_metrics is read-only; the call
returns its output paired with the post-call state, which is the unchanged
snapshot. -/
def performance_metrics_call (cm : ConfusionMatrix) : PerformanceMetrics × ConfusionMatrix :=
  (performance_metrics cm, cm)

/-- One mutating operation on a ConfusionMatrix: either a direct
insert_prediction call or a batch update call. -/
inductive MatrixOp where
  | ins (predicted actual : Nat)
  | upd (predictions labels : List (List Nat)) (sizes : List Nat)

/-- Application of one mutating operation. -/
def applyOp (cm : ConfusionMatrix) : MatrixOp → ConfusionMatrix
  | MatrixOp.ins p a => insert_prediction cm p a
  | MatrixOp.upd ps ls ss => update cm ps ls ss

/-- Application of a sequence of mutating operations, in order. -/
def applyOps (cm : ConfusionMatrix) (ops : List MatrixOp) : ConfusionMatrix :=
  ops.foldl applyOp cm

/-- Pointwise ordering of states: every cell count is at most the later
count and both label lists only grow (as sets). -/
def StateLe (cm cm' : ConfusionMatrix) : Prop :=
  (∀ r c, cm.matrix r c ≤ cm'.matrix r c) ∧
    cm.row_labels ⊆ cm'.row_labels ∧ cm.col_labels ⊆ cm'.col_labels

/-- The PAD sentinel of the test fixture.  Its concrete value is irrelevant
because padded positions are skipped; 9 stands outside the label range of
the fixture, as the fixture requires. -/
def PAD : Nat := 9

/-- The fixture predictions batch of the test suite (spec §8). -/
def fixturePredictions : List (List Nat) :=
  [[0, 1, 2, 3, 4, 5, 6, 7],
   [0, 1, 2, PAD, PAD, PAD, PAD, PAD],
   [0, 1, PAD, PAD, PAD, PAD, PAD, PAD],
   [0, 1, 2, 3, 4, PAD, PAD, PAD],
   [0, 1, 2, 3, PAD, PAD, PAD, PAD],
   [0, PAD, PAD, PAD, PAD, PAD, PAD, PAD],
   [0, 1, 2, 3, 4, 5, 6, PAD],
   [0, 1, 2, 3, 4, 5, PAD, PAD]]

/-- The fixture labels batch of the test suite (spec §8). -/
def fixtureLabels : List (List Nat) :=
  [[0, 1, 2, 3, 5, 5, 1, 7],
   [0, 1, 2, PAD, PAD, PAD, PAD, PAD],
   [0, 1, PAD, PAD, PAD, PAD, PAD, PAD],
   [0, 1, 2, 3, 5, PAD, PAD, PAD],
   [1, 2, 3, 4, PAD, PAD, PAD, PAD],
   [1, PAD, PAD, PAD, PAD, PAD, PAD, PAD],
   [1, 2, 3, 4, 5, 5, 6, PAD],
   [1, 2, 3, 4, 5, 5, PAD, PAD]]

/-- The fixture true-length batch of the test suite (spec §8). -/
def fixtureSizes : List Nat := [8, 3, 2, 5, 4, 1, 7, 6]

/-- The ConfusionMatrix obtained by updating a fresh matrix with the
fixture batch. -/
def fixtureCM : ConfusionMatrix :=
  update ConfusionMatrix.empty fixturePredictions fixtureLabels fixtureSizes

/-- The dense matrix the test suite expects from to_array() on the
fixture. -/
def expectedMatrix : List (List Nat) :=
  [[4, 0, 0, 0, 0, 0, 0, 0],
   [4, 4, 0, 0, 0, 0, 1, 0],
   [0, 3, 3, 0, 0, 0, 0, 0],
   [0, 0, 3, 2, 0, 0, 0, 0],
   [0, 0, 0, 3, 0, 0, 0, 0],
   [0, 0, 0, 0, 4, 3, 0, 0],
   [0, 0, 0, 0, 0, 0, 1, 0],
   [0, 0, 0, 0, 0, 0, 0, 1]]

/-- Semantics of the Python expression dict(...) applied to an ordered
sequence of key-value pairs: pairs are inserted in order and a later pair
overwrites an earlier one with the same key.  Absent keys map to none. -/
def dictOfPairs (pairs : List (String × Nat)) : String → Option Nat :=
  pairs.foldl (fun d kv => fun k => if k = kv.1 then some kv.2 else d k) (fun _ => none)

/-- The index_to_token list built by create_text_dataset
(src/tf_rnn/dataset_utils.py lines 120-121): the first component of every
vocabulary entry, followed by the appended UNKNOWN token. -/
def index_to_token (vocabulary : List (String × Nat)) (unknown : String) : List String :=
  vocabulary.map Prod.fst ++ [unknown]

/-- The token_to_index dictionary built by create_text_dataset
(src/tf_rnn/dataset_utils.py line 122):
dict((token, index) for index, token in enumerate(index_to_token)). -/
def token_to_index (itt : List String) : String → Option Nat :=
  dictOfPairs (itt.enum.map fun p => (p.2, p.1))

theorem mem_insertLabel_self (s : List Nat) (a : Nat) : a ∈ insertLabel s a := by
  unfold insertLabel
  split
  · assumption
  · exact List.mem_append_right _ (by simp)

theorem subset_insertLabel (s : List Nat) (a : Nat) : s ⊆ insertLabel s a := by
  intro x hx
  unfold insertLabel
  split
  · exact hx
  · exact List.mem_append_left _ hx

theorem stateLe_refl (cm : ConfusionMatrix) : StateLe cm cm :=
  ⟨fun _ _ => le_refl _, fun _ h => h, fun _ h => h⟩

theorem stateLe_trans {a b c : ConfusionMatrix} (h1 : StateLe a b) (h2 : StateLe b c) :
    StateLe a c :=
  ⟨fun r co => le_trans (h1.1 r co) (h2.1 r co),
   fun _ hx => h2.2.1 (h1.2.1 hx), fun _ hx => h2.2.2 (h1.2.2 hx)⟩

theorem insert_prediction_stateLe (cm : ConfusionMatrix) (p a : Nat) :
    StateLe cm (insert_prediction cm p a) := by
  refine ⟨fun r c => ?_, subset_insertLabel _ _, subset_insertLabel _ _⟩
  show cm.matrix r c ≤ if r = a ∧ c = p then cm.matrix r c + 1 else cm.matrix r c
  split <;> omega

theorem foldl_stateLe {α : Type} (f : ConfusionMatrix → α → ConfusionMatrix)
    (hf : ∀ s x, StateLe s (f s x)) :
    ∀ (l : List α) (s : ConfusionMatrix), StateLe s (List.foldl f s l) := by
  intro l
  induction l with
  | nil => intro s; exact stateLe_refl s
  | cons x t ih => intro s; exact stateLe_trans (hf s x) (ih (f s x))

theorem updateRow_stateLe (cm : ConfusionMatrix) (preds labs : List Nat) (size : Nat) :
    StateLe cm (updateRow cm preds labs size) := by
  unfold updateRow
  exact foldl_stateLe _
    (fun (s : ConfusionMatrix) (x : Nat × Nat) => insert_prediction_stateLe s x.1 x.2) _ cm

theorem runBatch_stateLe (cm : ConfusionMatrix) (p l : List (List Nat)) (s : List Nat) :
    StateLe cm (runBatch cm p l s) := by
  unfold runBatch
  exact foldl_stateLe _
    (fun (c : ConfusionMatrix) (x : (List Nat × List Nat) × Nat) =>
      updateRow_stateLe c x.1.1 x.1.2 x.2) _ cm

theorem update_stateLe (cm : ConfusionMatrix) (p l : List (List Nat)) (s : List Nat) :
    StateLe cm (update cm p l s) := by
  unfold update
  split
  · exact stateLe_refl cm
  · exact runBatch_stateLe cm p l s

theorem applyOp_stateLe (cm : ConfusionMatrix) (op : MatrixOp) : StateLe cm (applyOp cm op) := by
  cases op with
  | ins p a => exact insert_prediction_stateLe cm p a
  | upd ps ls ss => exact update_stateLe cm ps ls ss

theorem runBatch_cons (cm : ConfusionMatrix) (p0 l0 : List Nat) (s0 : Nat)
    (pt lt : List (List Nat)) (st : List Nat) :
    runBatch cm (p0 :: pt) (l0 :: lt) (s0 :: st) = runBatch (updateRow cm p0 l0 s0) pt lt st :=
  rfl

theorem updateRow_take_congr (cm : ConfusionMatrix) (p0 l0 p0' l0' : List Nat) (s0 : Nat)
    (hp : p0.take s0 = p0'.take s0) (hl : l0.take s0 = l0'.take s0) :
    updateRow cm p0 l0 s0 = updateRow cm p0' l0' s0 := by
  unfold updateRow
  rw [hp, hl]

theorem runBatch_congr : ∀ (s : List Nat) (cm : ConfusionMatrix) (p l p' l' : List (List Nat)),
    p.length = p'.length → l.length = l'.length →
    (∀ i, i < s.length → (p.getD i []).take (s.getD i 0) = (p'.getD i []).take (s.getD i 0)) →
    (∀ i, i < s.length → (l.getD i []).take (s.getD i 0) = (l'.getD i []).take (s.getD i 0)) →
    runBatch cm p l s = runBatch cm p' l' s := by
  intro s
  induction s with
  | nil =>
    intro cm p l p' l' _ _ _ _
    simp [runBatch]
  | cons s0 st ih =>
    intro cm p l p' l' hp hl hpa hla
    cases p with
    | nil =>
      cases p' with
      | nil => simp [runBatch]
      | cons a b => simp at hp
    | cons p0 pt =>
      cases p' with
      | nil => simp at hp
      | cons p0' pt' =>
        cases l with
        | nil =>
          cases l' with
          | nil => simp [runBatch]
          | cons a b => simp at hl
        | cons l0 lt =>
          cases l' with
          | nil => simp at hl
          | cons l0' lt' =>
            have h0p : p0.take s0 = p0'.take s0 := by
              have h := hpa 0 (by simp)
              simpa using h
            have h0l : l0.take s0 = l0'.take s0 := by
              have h := hla 0 (by simp)
              simpa using h
            rw [runBatch_cons, runBatch_cons,
              updateRow_take_congr cm p0 l0 p0' l0' s0 h0p h0l]
            exact ih (updateRow cm p0' l0' s0) pt lt pt' lt'
              (by simpa using hp) (by simpa using hl)
              (fun i hi => by
                simpa using hpa (i + 1) (by simp only [List.length_cons]; omega))
              (fun i hi => by
                simpa using hla (i + 1) (by simp only [List.length_cons]; omega))

/-- C4: padding noninterference.  For any state and any two batches with the
same sizes whose rows agree on the first sizes[i] positions, update produces
identical final states: entries at or beyond sizes[i] never influence the
matrix or the label lists, whatever their content. -/
theorem update_ignores_padding (cm : ConfusionMatrix)
    (predictions labels predictions' labels' : List (List Nat)) (sizes : List Nat)
    (hp : predictions.length = predictions'.length)
    (hl : labels.length = labels'.length)
    (hpa : ∀ i, i < sizes.length →
      (predictions.getD i []).take (sizes.getD i 0)
        = (predictions'.getD i []).take (sizes.getD i 0))
    (hla : ∀ i, i < sizes.length →
      (labels.getD i []).take (sizes.getD i 0)
        = (labels'.getD i []).take (sizes.getD i 0)) :
    update cm predictions labels sizes = update cm predictions' labels' sizes := by
  have hpe : (predictions = []) ↔ (predictions' = []) := by
    simp only [← List.length_eq_zero, hp]
  have hle : (labels = []) ↔ (labels' = []) := by
    simp only [← List.length_eq_zero, hl]
  unfold update
  by_cases h : predictions = [] ∨ labels = [] ∨ sizes = []
  · have h' : predictions' = [] ∨ labels' = [] ∨ sizes = [] := by
      rcases h with h | h | h
      · exact Or.inl (hpe.mp h)
      · exact Or.inr (Or.inl (hle.mp h))
      · exact Or.inr (Or.inr h)
    rw [if_pos h, if_pos h']
  · have h' : ¬(predictions' = [] ∨ labels' = [] ∨ sizes = []) := by
      intro hcon
      apply h
      rcases hcon with hc | hc | hc
      · exact Or.inl (hpe.mpr hc)
      · exact Or.inr (Or.inl (hle.mpr hc))
      · exact Or.inr (Or.inr hc)
    rw [if_neg h, if_neg h']
    exact runBatch_congr sizes cm predictions labels predictions' labels' hp hl hpa hla

/-- Witness for C4: two concrete one-row batches that differ only in the
padded position produce the same state. -/
theorem update_ignores_padding_witness :
    (([[0, 7]] : List (List Nat)).length = ([[0, 2]] : List (List Nat)).length) ∧
    (([[1, 8]] : List (List Nat)).length = ([[1, 3]] : List (List Nat)).length) ∧
    (∀ i, i < ([1] : List Nat).length →
      (([[0, 7]] : List (List Nat)).getD i []).take (([1] : List Nat).getD i 0)
        = (([[0, 2]] : List (List Nat)).getD i []).take (([1] : List Nat).getD i 0)) ∧
    (∀ i, i < ([1] : List Nat).length →
      (([[1, 8]] : List (List Nat)).getD i []).take (([1] : List Nat).getD i 0)
        = (([[1, 3]] : List (List Nat)).getD i []).take (([1] : List Nat).getD i 0)) ∧
    update ConfusionMatrix.empty [[0, 7]] [[1, 8]] [1]
      = update ConfusionMatrix.empty [[0, 2]] [[1, 3]] [1] :=
  ⟨by decide, by decide, by decide, by decide,
   update_ignores_padding ConfusionMatrix.empty [[0, 7]] [[1, 8]] [[0, 2]] [[1, 3]] [1]
     (by decide) (by decide) (by decide) (by decide)⟩

theorem fixture_labels_eq : labelsOf fixtureCM = [0, 1, 2, 3, 5, 7, 4, 6] := by decide

theorem rowRatio_eval (cm : ConfusionMatrix) (l tp rs : Nat)
    (h1 : truePositives cm l = tp) (h2 : rowSupport cm l = rs) :
    rowRatioOfLabel cm l = if 0 < rs then (tp : Rat) / (rs : Rat) else 0 := by
  unfold rowRatioOfLabel
  rw [h1, h2]

theorem colRatio_eval (cm : ConfusionMatrix) (l tp cs : Nat)
    (h1 : truePositives cm l = tp) (h2 : colSupport cm l = cs) :
    colRatioOfLabel cm l = if 0 < cs then (tp : Rat) / (cs : Rat) else 0 := by
  unfold colRatioOfLabel
  rw [h1, h2]

theorem fx_rr_0 : rowRatioOfLabel fixtureCM 0 = 1 := by
  rw [rowRatio_eval fixtureCM 0 4 4 (by decide) (by decide)]
  norm_num

theorem fx_rr_1 : rowRatioOfLabel fixtureCM 1 = 4/9 := by
  rw [rowRatio_eval fixtureCM 1 4 9 (by decide) (by decide)]
  norm_num

theorem fx_rr_2 : rowRatioOfLabel fixtureCM 2 = 1/2 := by
  rw [rowRatio_eval fixtureCM 2 3 6 (by decide) (by decide)]
  norm_num

theorem fx_rr_3 : rowRatioOfLabel fixtureCM 3 = 2/5 := by
  rw [rowRatio_eval fixtureCM 3 2 5 (by decide) (by decide)]
  norm_num

theorem fx_rr_4 : rowRatioOfLabel fixtureCM 4 = 0 := by
  rw [rowRatio_eval fixtureCM 4 0 3 (by decide) (by decide)]
  norm_num

theorem fx_rr_5 : rowRatioOfLabel fixtureCM 5 = 3/7 := by
  rw [rowRatio_eval fixtureCM 5 3 7 (by decide) (by decide)]
  norm_num

theorem fx_rr_6 : rowRatioOfLabel fixtureCM 6 = 1 := by
  rw [rowRatio_eval fixtureCM 6 1 1 (by decide) (by decide)]
  norm_num

theorem fx_rr_7 : rowRatioOfLabel fixtureCM 7 = 1 := by
  rw [rowRatio_eval fixtureCM 7 1 1 (by decide) (by decide)]
  norm_num

theorem fx_cr_0 : colRatioOfLabel fixtureCM 0 = 1/2 := by
  rw [colRatio_eval fixtureCM 0 4 8 (by decide) (by decide)]
  norm_num

theorem fx_cr_1 : colRatioOfLabel fixtureCM 1 = 4/7 := by
  rw [colRatio_eval fixtureCM 1 4 7 (by decide) (by decide)]
  norm_num

theorem fx_cr_2 : colRatioOfLabel fixtureCM 2 = 1/2 := by
  rw [colRatio_eval fixtureCM 2 3 6 (by decide) (by decide)]
  norm_num

theorem fx_cr_3 : colRatioOfLabel fixtureCM 3 = 2/5 := by
  rw [colRatio_eval fixtureCM 3 2 5 (by decide) (by decide)]
  norm_num

theorem fx_cr_4 : colRatioOfLabel fixtureCM 4 = 0 := by
  rw [colRatio_eval fixtureCM 4 0 4 (by decide) (by decide)]
  norm_num

theorem fx_cr_5 : colRatioOfLabel fixtureCM 5 = 1 := by
  rw [colRatio_eval fixtureCM 5 3 3 (by decide) (by decide)]
  norm_num

theorem fx_cr_6 : colRatioOfLabel fixtureCM 6 = 1/2 := by
  rw [colRatio_eval fixtureCM 6 1 2 (by decide) (by decide)]
  norm_num

theorem fx_cr_7 : colRatioOfLabel fixtureCM 7 = 1 := by
  rw [colRatio_eval fixtureCM 7 1 1 (by decide) (by decide)]
  norm_num

theorem fixture_macro_row : macroAgg fixtureCM rowRatioOfLabel = 3007/5040 := by
  unfold macroAgg
  rw [fixture_labels_eq]
  simp only [List.map_cons, List.map_nil, List.sum_cons, List.sum_nil,
    List.length_cons, List.length_nil]
  rw [fx_rr_0, fx_rr_1, fx_rr_2, fx_rr_3, fx_rr_5, fx_rr_7, fx_rr_4, fx_rr_6]
  norm_num

theorem fixture_macro_col : macroAgg fixtureCM colRatioOfLabel = 313/560 := by
  unfold macroAgg
  rw [fixture_labels_eq]
  simp only [List.map_cons, List.map_nil, List.sum_cons, List.sum_nil,
    List.length_cons, List.length_nil]
  rw [fx_cr_0, fx_cr_1, fx_cr_2, fx_cr_3, fx_cr_5, fx_cr_7, fx_cr_4, fx_cr_6]
  norm_num

theorem fixture_accuracy : accuracyOf fixtureCM = 1/2 := by
  have ht : totalCount fixtureCM = 36 := by decide
  have htr : ((labelsOf fixtureCM).map fun l => truePositives fixtureCM l).sum = 18 := by
    decide
  unfold accuracyOf
  rw [ht, htr]
  norm_num

theorem fixture_f1 : f1Of fixtureCM = 941191/1630720 := by
  unfold f1Of
  rw [fixture_macro_row, fixture_macro_col]
  norm_num

theorem fixture_pm : performance_metrics fixtureCM
    = ⟨1/2, 3007/5040, 313/560, 941191/1630720⟩ := by
  unfold performance_metrics
  rw [if_neg (by decide : ¬ labelsOf fixtureCM = [])]
  rw [fixture_accuracy, fixture_macro_row, fixture_macro_col, fixture_f1]

theorem fixture_rw_col : rowWeightedAgg fixtureCM colRatioOfLabel = 289/504 := by
  have ht : totalCount fixtureCM = 36 := by decide
  have h0 : rowSupport fixtureCM 0 = 4 := by decide
  have h1 : rowSupport fixtureCM 1 = 9 := by decide
  have h2 : rowSupport fixtureCM 2 = 6 := by decide
  have h3 : rowSupport fixtureCM 3 = 5 := by decide
  have h4 : rowSupport fixtureCM 4 = 3 := by decide
  have h5 : rowSupport fixtureCM 5 = 7 := by decide
  have h6 : rowSupport fixtureCM 6 = 1 := by decide
  have h7 : rowSupport fixtureCM 7 = 1 := by decide
  unfold rowWeightedAgg
  rw [fixture_labels_eq]
  simp only [List.map_cons, List.map_nil, List.sum_cons, List.sum_nil]
  rw [h0, h1, h2, h3, h5, h7, h4, h6, ht,
    fx_cr_0, fx_cr_1, fx_cr_2, fx_cr_3, fx_cr_5, fx_cr_7, fx_cr_4, fx_cr_6]
  norm_num

theorem fixture_cw_col : colWeightedAgg fixtureCM colRatioOfLabel = 1/2 := by
  have ht : totalCount fixtureCM = 36 := by decide
  have h0 : colSupport fixtureCM 0 = 8 := by decide
  have h1 : colSupport fixtureCM 1 = 7 := by decide
  have h2 : colSupport fixtureCM 2 = 6 := by decide
  have h3 : colSupport fixtureCM 3 = 5 := by decide
  have h4 : colSupport fixtureCM 4 = 4 := by decide
  have h5 : colSupport fixtureCM 5 = 3 := by decide
  have h6 : colSupport fixtureCM 6 = 2 := by decide
  have h7 : colSupport fixtureCM 7 = 1 := by decide
  unfold colWeightedAgg
  rw [fixture_labels_eq]
  simp only [List.map_cons, List.map_nil, List.sum_cons, List.sum_nil]
  rw [h0, h1, h2, h3, h5, h7, h4, h6, ht,
    fx_cr_0, fx_cr_1, fx_cr_2, fx_cr_3, fx_cr_5, fx_cr_7, fx_cr_4, fx_cr_6]
  norm_num

theorem fixture_rw_row : rowWeightedAgg fixtureCM rowRatioOfLabel = 1/2 := by
  have ht : totalCount fixtureCM = 36 := by decide
  have h0 : rowSupport fixtureCM 0 = 4 := by decide
  have h1 : rowSupport fixtureCM 1 = 9 := by decide
  have h2 : rowSupport fixtureCM 2 = 6 := by decide
  have h3 : rowSupport fixtureCM 3 = 5 := by decide
  have h4 : rowSupport fixtureCM 4 = 3 := by decide
  have h5 : rowSupport fixtureCM 5 = 7 := by decide
  have h6 : rowSupport fixtureCM 6 = 1 := by decide
  have h7 : rowSupport fixtureCM 7 = 1 := by decide
  unfold rowWeightedAgg
  rw [fixture_labels_eq]
  simp only [List.map_cons, List.map_nil, List.sum_cons, List.sum_nil]
  rw [h0, h1, h2, h3, h5, h7, h4, h6, ht,
    fx_rr_0, fx_rr_1, fx_rr_2, fx_rr_3, fx_rr_5, fx_rr_7, fx_rr_4, fx_rr_6]
  norm_num

theorem fixture_cw_row : colWeightedAgg fixtureCM rowRatioOfLabel = 1285/2268 := by
  have ht : totalCount fixtureCM = 36 := by decide
  have h0 : colSupport fixtureCM 0 = 8 := by decide
  have h1 : colSupport fixtureCM 1 = 7 := by decide
  have h2 : colSupport fixtureCM 2 = 6 := by decide
  have h3 : colSupport fixtureCM 3 = 5 := by decide
  have h4 : colSupport fixtureCM 4 = 4 := by decide
  have h5 : colSupport fixtureCM 5 = 3 := by decide
  have h6 : colSupport fixtureCM 6 = 2 := by decide
  have h7 : colSupport fixtureCM 7 = 1 := by decide
  unfold colWeightedAgg
  rw [fixture_labels_eq]
  simp only [List.map_cons, List.map_nil, List.sum_cons, List.sum_nil]
  rw [h0, h1, h2, h3, h5, h7, h4, h6, ht,
    fx_rr_0, fx_rr_1, fx_rr_2, fx_rr_3, fx_rr_5, fx_rr_7, fx_rr_4, fx_rr_6]
  norm_num

/-- C2: on the fixture batch, performance_metrics() returns exactly
accuracy 1/2, precision 3007/5040, recall 313/560, and an f1 score within
the golden test's floating-point tolerance of 0.5771628483. -/
theorem performance_metrics_fixture_values :
    (performance_metrics fixtureCM).accuracy = 1/2 ∧
    (performance_metrics fixtureCM).precision = 3007/5040 ∧
    (performance_metrics fixtureCM).recall_score = 313/560 ∧
    |(performance_metrics fixtureCM).f1_score - 5771628483/10000000000| < 1/1000000 := by
  rw [fixture_pm]
  refine ⟨rfl, rfl, rfl, ?_⟩
  show |(941191 : Rat)/1630720 - 5771628483/10000000000| < 1/1000000
  rw [abs_lt]
  constructor <;> norm_num

/-- Counterexample for C3: on the fixture, the reported precision scalar is
not any of the macro, row-support-weighted or column-support-weighted
averages of the per-label TP/C ratios, and the reported recall scalar is
not any such average of the per-label TP/R ratios. -/
theorem precision_recall_aggregation_counterexample :
    (performance_metrics fixtureCM).precision ≠ macroAgg fixtureCM colRatioOfLabel ∧
    (performance_metrics fixtureCM).precision ≠ rowWeightedAgg fixtureCM colRatioOfLabel ∧
    (performance_metrics fixtureCM).precision ≠ colWeightedAgg fixtureCM colRatioOfLabel ∧
    (performance_metrics fixtureCM).recall_score ≠ macroAgg fixtureCM rowRatioOfLabel ∧
    (performance_metrics fixtureCM).recall_score ≠ rowWeightedAgg fixtureCM rowRatioOfLabel ∧
    (performance_metrics fixtureCM).recall_score ≠ colWeightedAgg fixtureCM rowRatioOfLabel := by
  rw [fixture_pm, fixture_macro_col, fixture_rw_col, fixture_cw_col,
    fixture_macro_row, fixture_rw_row, fixture_cw_row]
  refine ⟨by norm_num, by norm_num, by norm_num, by norm_num, by norm_num, by norm_num⟩

/-- C3 amended: on any non-empty matrix the reported precision scalar is
the macro average of the per-label row-based ratios TP(l)/R(l) and the
reported recall scalar the macro average of the per-label column-based
ratios TP(l)/C(l) - the two aggregates are swapped relative to the claim. -/
theorem precision_recall_swapped (cm : ConfusionMatrix) (h : labelsOf cm ≠ []) :
    (performance_metrics cm).precision = macroAgg cm rowRatioOfLabel ∧
    (performance_metrics cm).recall_score = macroAgg cm colRatioOfLabel := by
  unfold performance_metrics
  rw [if_neg h]
  exact ⟨rfl, rfl⟩

/-- Witness for the amended C3 at the fixture matrix. -/
theorem precision_recall_swapped_witness :
    labelsOf fixtureCM ≠ [] ∧
    ((performance_metrics fixtureCM).precision = macroAgg fixtureCM rowRatioOfLabel ∧
     (performance_metrics fixtureCM).recall_score = macroAgg fixtureCM colRatioOfLabel) :=
  ⟨by decide, precision_recall_swapped fixtureCM (by decide)⟩

/-- C1: after a fresh ConfusionMatrix is updated with the fixture batch of
spec §8, to_array() returns exactly the expected 8x8 dense matrix, with
rows and columns indexed by the sorted deduplicated union of row and
column labels, which is 0..7. -/
theorem to_array_fixture_exact :
    to_array fixtureCM = expectedMatrix ∧
    sortedLabels fixtureCM = [0, 1, 2, 3, 4, 5, 6, 7] := by
  constructor <;> decide

/-- C5: insert_prediction(p, a) increments matrix[a][p] by exactly 1 and
leaves every other cell unchanged (so a fresh cell is created at 1), and
adds a to row_labels and p to col_labels; on a fresh matrix
insert_prediction(0, 1) yields row_labels containing exactly 1, col_labels
containing exactly 0 and the single cell matrix[1][0] = 1, and a second
identical call makes that same cell 2. -/
theorem insert_prediction_increments (cm : ConfusionMatrix) (p a : Nat) :
    (∀ r c, (insert_prediction cm p a).matrix r c
        = if r = a ∧ c = p then cm.matrix r c + 1 else cm.matrix r c) ∧
    a ∈ (insert_prediction cm p a).row_labels ∧
    p ∈ (insert_prediction cm p a).col_labels ∧
    (insert_prediction ConfusionMatrix.empty 0 1).row_labels = [1] ∧
    (insert_prediction ConfusionMatrix.empty 0 1).col_labels = [0] ∧
    (insert_prediction ConfusionMatrix.empty 0 1).matrix 1 0 = 1 ∧
    (insert_prediction (insert_prediction ConfusionMatrix.empty 0 1) 0 1).matrix 1 0 = 2 :=
  ⟨fun _ _ => rfl, mem_insertLabel_self _ _, mem_insertLabel_self _ _,
   by decide, by decide, by decide, by decide⟩

/-- C6: update with an empty predictions, labels, or sizes sequence leaves
the state (matrix and both label lists) unchanged, and to_array() on a
fresh matrix returns the empty sequence. -/
theorem update_noop_on_empty_input (cm : ConfusionMatrix)
    (predictions labels : List (List Nat)) (sizes : List Nat)
    (h : predictions = [] ∨ labels = [] ∨ sizes = []) :
    update cm predictions labels sizes = cm ∧ to_array ConfusionMatrix.empty = [] :=
  ⟨by unfold update; rw [if_pos h], rfl⟩

/-- Witness for C6 at a concrete state and batch. -/
theorem update_noop_on_empty_input_witness :
    (([] : List (List Nat)) = [] ∨ ([[1, 2]] : List (List Nat)) = [] ∨ ([3] : List Nat) = []) ∧
    (update fixtureCM [] [[1, 2]] [3] = fixtureCM ∧ to_array ConfusionMatrix.empty = []) :=
  ⟨Or.inl rfl, update_noop_on_empty_input fixtureCM [] [[1, 2]] [3] (Or.inl rfl)⟩

/-- C7: performance_metrics() on an empty matrix returns the neutral record
(all four fields 0) rather than faulting, and a label with zero row or
column support gets per-label quantity 0 rather than a division fault. -/
theorem performance_metrics_degenerate_neutral (cm : ConfusionMatrix) (l : Nat) :
    performance_metrics ConfusionMatrix.empty = ⟨0, 0, 0, 0⟩ ∧
    (rowSupport cm l = 0 → rowRatioOfLabel cm l = 0) ∧
    (colSupport cm l = 0 → colRatioOfLabel cm l = 0) := by
  refine ⟨by decide, fun h => ?_, fun h => ?_⟩
  · unfold rowRatioOfLabel
    rw [h]
    simp
  · unfold colRatioOfLabel
    rw [h]
    simp

/-- Witness for C7 at the empty matrix and label 5. -/
theorem performance_metrics_degenerate_neutral_witness :
    rowSupport ConfusionMatrix.empty 5 = 0 ∧ colSupport ConfusionMatrix.empty 5 = 0 ∧
    rowRatioOfLabel ConfusionMatrix.empty 5 = 0 ∧ colRatioOfLabel ConfusionMatrix.empty 5 = 0 :=
  ⟨by decide, by decide,
   (performance_metrics_degenerate_neutral ConfusionMatrix.empty 5).2.1 (by decide),
   (performance_metrics_degenerate_neutral ConfusionMatrix.empty 5).2.2 (by decide)⟩

/-- C8: to_array and performance_metrics never mutate the state, and two
successive calls with no intervening mutation return identical results. -/
theorem snapshot_reads_preserve_state (cm : ConfusionMatrix) :
    (to_array_call cm).2 = cm ∧ (performance_metrics_call cm).2 = cm ∧
    (to_array_call ((to_array_call cm).2)).1 = (to_array_call cm).1 ∧
    (performance_metrics_call ((performance_metrics_call cm).2)).1
      = (performance_metrics_call cm).1 :=
  ⟨rfl, rfl, rfl, rfl⟩

/-- C9: over any sequence of insert_prediction and update operations, every
cell count is monotonically non-decreasing and the row and column label
sets only grow. -/
theorem counts_and_labels_monotone (cm : ConfusionMatrix) (ops : List MatrixOp) :
    (∀ r c, cm.matrix r c ≤ (applyOps cm ops).matrix r c) ∧
    cm.row_labels ⊆ (applyOps cm ops).row_labels ∧
    cm.col_labels ⊆ (applyOps cm ops).col_labels :=
  foldl_stateLe applyOp applyOp_stateLe ops cm

theorem dictOfPairs_append (ps : List (String × Nat)) (kv : String × Nat) :
    dictOfPairs (ps ++ [kv])
      = fun k => if k = kv.1 then some kv.2 else dictOfPairs ps k := by
  unfold dictOfPairs
  rw [List.foldl_append]
  rfl

theorem enum_concat (ys : List String) (y : String) :
    (ys ++ [y]).enum = ys.enum ++ [(ys.length, y)] := by
  rw [List.enum_append]
  rfl

theorem token_pairs_concat (ys : List String) (y : String) :
    ((ys ++ [y]).enum.map fun p => (p.2, p.1))
      = (ys.enum.map fun p => (p.2, p.1)) ++ [(y, ys.length)] := by
  rw [enum_concat, List.map_append]
  rfl

theorem token_to_index_concat (ys : List String) (y : String) :
    token_to_index (ys ++ [y])
      = fun k => if k = y then some ys.length else token_to_index ys k := by
  unfold token_to_index
  rw [token_pairs_concat, dictOfPairs_append]

theorem getD_eq_get (l : List String) (i : Nat) (h : i < l.length) (d : String) :
    l.getD i d = l.get ⟨i, h⟩ := by
  simp [List.getD_eq_getElem?_getD, List.getElem?_eq_getElem, h, List.get_eq_getElem]

theorem mem_getD (t : String) (l : List String) (h : t ∈ l) :
    ∃ i, i < l.length ∧ l.getD i "" = t := by
  induction l with
  | nil => simp at h
  | cons a tl ih =>
    rcases List.mem_cons.mp h with heq | hmem
    · exact ⟨0, by simp, by simp [heq]⟩
    · rcases ih hmem with ⟨i, hi, hg⟩
      refine ⟨i + 1, ?_, by simpa using hg⟩
      simp only [List.length_cons]
      omega

theorem token_to_index_getD (itt : List String) :
    ∀ i, i < itt.length →
      (∀ j, i < j → j < itt.length → itt.getD j "" ≠ itt.getD i "") →
      token_to_index itt (itt.getD i "") = some i := by
  induction itt using List.reverseRecOn with
  | nil =>
    intro i hi _
    simp at hi
  | append_singleton ys y ih =>
    intro i hi hno
    have hi' : i < ys.length + 1 := by simpa using hi
    have hy : (ys ++ [y]).getD ys.length "" = y := by
      rw [List.getD_append_right ys [y] "" ys.length (le_refl _)]
      simp
    rcases Nat.lt_succ_iff_lt_or_eq.mp hi' with hlt | heq
    · have hgd : (ys ++ [y]).getD i "" = ys.getD i "" := List.getD_append ys [y] "" i hlt
      have hne : (ys ++ [y]).getD ys.length "" ≠ (ys ++ [y]).getD i "" :=
        hno ys.length hlt (by simp)
      have hky : ys.getD i "" ≠ y := by
        intro hcon
        apply hne
        rw [hy, hgd, hcon]
      rw [token_to_index_concat, hgd]
      show (if ys.getD i "" = y then some ys.length else token_to_index ys (ys.getD i "")) = some i
      rw [if_neg hky]
      apply ih i hlt
      intro j hij hj hcon
      have hgdj : (ys ++ [y]).getD j "" = ys.getD j "" := List.getD_append ys [y] "" j hj
      have hcontra := hno j hij (by simp only [List.length_append, List.length_cons, List.length_nil]; omega)
      rw [hgdj, hgd] at hcontra
      exact hcontra hcon
    · subst heq
      rw [token_to_index_concat, hy]
      simp

theorem token_to_index_nodup_inverse (itt : List String) (hnd : itt.Nodup) :
    (∀ i, i < itt.length → token_to_index itt (itt.getD i "") = some i) ∧
    (∀ t, t ∈ itt → ∃ i, i < itt.length ∧ token_to_index itt t = some i ∧
      itt.getD i "" = t) := by
  have hleft : ∀ i, i < itt.length → token_to_index itt (itt.getD i "") = some i := by
    intro i hi
    apply token_to_index_getD itt i hi
    intro j hij hj hcon
    have hg1 : itt.getD j "" = itt.get ⟨j, hj⟩ := getD_eq_get itt j hj ""
    have hg2 : itt.getD i "" = itt.get ⟨i, hi⟩ := getD_eq_get itt i hi ""
    have hinj := List.nodup_iff_injective_get.mp hnd
    have hfin : (⟨j, hj⟩ : Fin itt.length) = ⟨i, hi⟩ := by
      apply hinj
      rw [← hg1, ← hg2, hcon]
    have hji : j = i := by
      simpa using hfin
    omega
  refine ⟨hleft, fun t ht => ?_⟩
  rcases mem_getD t itt ht with ⟨i, hi, hg⟩
  refine ⟨i, hi, ?_, hg⟩
  rw [← hg]
  exact hleft i hi

/-- C10: for the mappings built by create_text_dataset, token_to_index is a
left inverse of index_to_token at every index whose token occurs at no
later index, and when all entries of index_to_token are pairwise distinct
the two mappings are mutual inverses: every index round-trips through its
token, and every token round-trips through its index. -/
theorem token_index_inverse (vocabulary : List (String × Nat)) (unknown : String) :
    (∀ i, i < (index_to_token vocabulary unknown).length →
      (∀ j, i < j → j < (index_to_token vocabulary unknown).length →
        (index_to_token vocabulary unknown).getD j ""
          ≠ (index_to_token vocabulary unknown).getD i "") →
      token_to_index (index_to_token vocabulary unknown)
        ((index_to_token vocabulary unknown).getD i "") = some i) ∧
    ((index_to_token vocabulary unknown).Nodup →
      (∀ i, i < (index_to_token vocabulary unknown).length →
        token_to_index (index_to_token vocabulary unknown)
          ((index_to_token vocabulary unknown).getD i "") = some i) ∧
      (∀ t, t ∈ index_to_token vocabulary unknown →
        ∃ i, i < (index_to_token vocabulary unknown).length ∧
          token_to_index (index_to_token vocabulary unknown) t = some i ∧
          (index_to_token vocabulary unknown).getD i "" = t)) :=
  ⟨token_to_index_getD (index_to_token vocabulary unknown),
   fun hnd => token_to_index_nodup_inverse (index_to_token vocabulary unknown) hnd⟩

/-- Witness for C10 on the vocabulary [("a", 3), ("b", 2)] with UNKNOWN
token "u": index 1 round-trips and token "u" round-trips. -/
theorem token_index_inverse_witness :
    (1 < (index_to_token [("a", 3), ("b", 2)] "u").length) ∧
    (index_to_token [("a", 3), ("b", 2)] "u").Nodup ∧
    token_to_index (index_to_token [("a", 3), ("b", 2)] "u")
      ((index_to_token [("a", 3), ("b", 2)] "u").getD 1 "") = some 1 ∧
    (∃ i, i < (index_to_token [("a", 3), ("b", 2)] "u").length ∧
      token_to_index (index_to_token [("a", 3), ("b", 2)] "u") "u" = some i ∧
      (index_to_token [("a", 3), ("b", 2)] "u").getD i "" = "u") :=
  ⟨by decide, by decide,
   ((token_index_inverse [("a", 3), ("b", 2)] "u").2 (by decide)).1 1 (by decide),
   ((token_index_inverse [("a", 3), ("b", 2)] "u").2 (by decide)).2 "u" (by decide)⟩

end TfRnn
